import Mathlib

/-!
Verification of the token-ledger and payment-verification core of the
Telegram bot in `main.py` (tables `users`, `payments`, `content`,
`referrals`; operations `create_user`, `add_referral_bonus`,
`update_tokens`, `/start`, `/verify`, `/reject`, `/admin_tokens`, the buy
callback, the content deeplink handler and the admin-only guards).

The SQLite rows are embedded as Lean structures, the database as lists of
rows, and each handler as a state-passing function.  Timestamps are an
abstract `Nat` clock passed in by the caller; SQL `CURRENT_TIMESTAMP`
becomes that clock value.  `md5`-based code generation is an external
primitive, so freshly drawn codes/deeplinks enter the model as explicit
arguments.  Each `Database.execute_query` call in the source commits (or
rolls back) on its own, which the model reflects by making every query one
pure state transformation; the two-query shape of `update_tokens` is kept
as a composition of two such transformations, with a variant recording
which of the two commits succeeded.
-/

namespace Bot

/-- The `status` column of the `payments` table:
`CHECK(status IN ('pending', 'verified', 'rejected'))`. -/
inductive PayStatus
  | pending
  | verified
  | rejected
deriving DecidableEq

/-- Boolean test for `status = 'pending'` (the SQL `WHERE` clauses compare
against the literal string). -/
def PayStatus.isPending : PayStatus → Bool
  | .pending => true
  | _ => false

/-- One row of the `users` table. -/
structure UserRow where
  user_id : Nat
  username : Option String
  first_name : String
  tokens : Int
  referral_code : String
  referred_by : Option Nat
  join_date : Nat
  last_activity : Nat
  is_active : Bool
  total_spent : Int
  total_earned : Int
deriving DecidableEq

/-- One row of the `payments` table.  `amount` is whole rupees (the fixed
package table only uses whole amounts). -/
structure PaymentRow where
  id : Nat
  user_id : Nat
  amount : Int
  tokens : Int
  upi_ref : Option String
  status : PayStatus
  created_at : Nat
  verified_at : Option Nat
  verified_by : Option Nat
  rejection_reason : Option String
deriving DecidableEq

/-- One row of the `content` table. -/
structure ContentRow where
  id : Nat
  title : String
  description : String
  file_id : String
  file_type : String
  tokens_required : Int
  deeplink : String
  created_at : Nat
  created_by : Option Nat
  views : Nat
  is_active : Bool
deriving DecidableEq

/-- One row of the `referrals` table (`UNIQUE(referrer_id, referred_id)`). -/
structure ReferralRow where
  id : Nat
  referrer_id : Nat
  referred_id : Nat
  tokens_earned : Int
  created_at : Nat
deriving DecidableEq

/-- The persistent store (the `bot_stats` side table only feeds display
strings and is not part of any claim). -/
structure DB where
  users : List UserRow
  payments : List PaymentRow
  content : List ContentRow
  referrals : List ReferralRow
deriving DecidableEq

/-- `Database.get_user`: `SELECT * FROM users WHERE user_id = ?`, first row. -/
def getUser (db : DB) (uid : Nat) : Option UserRow :=
  db.users.find? (fun u => u.user_id == uid)

/-- `Database.get_user_by_referral`:
`SELECT * FROM users WHERE referral_code = ?`, first row. -/
def get_user_by_referral (db : DB) (code : String) : Option UserRow :=
  db.users.find? (fun u => u.referral_code == code)

/-- Lookup of a payment row by `id` (primary key). -/
def getPayment (db : DB) (pid : Nat) : Option PaymentRow :=
  db.payments.find? (fun p => p.id == pid)

/-- Lookup of an active content row by deeplink:
`SELECT * FROM content WHERE deeplink = ? AND is_active = 1`, first row. -/
def getActiveContent (db : DB) (d : String) : Option ContentRow :=
  db.content.find? (fun c => c.deeplink == d && c.is_active)

/-- First query of `Database.update_tokens`:
`UPDATE users SET tokens = tokens + ?, last_activity = CURRENT_TIMESTAMP
WHERE user_id = ?` — one committed transaction. -/
def applyTokensUpdate (now : Nat) (db : DB) (uid : Nat) (t : Int) : DB :=
  { db with users := db.users.map (fun u =>
      if u.user_id == uid then
        { u with tokens := u.tokens + t, last_activity := now }
      else u) }

/-- Second query of `Database.update_tokens`: when `tokens > 0`,
`UPDATE users SET total_earned = total_earned + ? WHERE user_id = ?`,
otherwise `UPDATE users SET total_spent = total_spent + abs(?) WHERE
user_id = ?` — again one committed transaction of its own. -/
def applyCounterUpdate (db : DB) (uid : Nat) (t : Int) : DB :=
  if 0 < t then
    { db with users := db.users.map (fun u =>
        if u.user_id == uid then { u with total_earned := u.total_earned + t }
        else u) }
  else
    { db with users := db.users.map (fun u =>
        if u.user_id == uid then { u with total_spent := u.total_spent + |t| }
        else u) }

/-- `Database.update_tokens` when both `execute_query` calls succeed: the
balance update commits first, the lifetime-counter update commits second. -/
def update_tokens (now : Nat) (db : DB) (uid : Nat) (t : Int) : DB :=
  applyCounterUpdate (applyTokensUpdate now db uid t) uid t

/-- `Database.update_tokens` with an explicit record of which of its two
`execute_query` calls committed.  A failing call rolls back only itself
(`execute_query` catches the `sqlite3.Error`, rolls back, and returns the
empty list, so `update_tokens` observes no failure and reports none). -/
def update_tokens_f (ok1 ok2 : Bool) (now : Nat) (db : DB) (uid : Nat)
    (t : Int) : DB :=
  let db1 := if ok1 then applyTokensUpdate now db uid t else db
  if ok2 then applyCounterUpdate db1 uid t else db1

/-- Fresh `AUTOINCREMENT` id for the `referrals` table. -/
def nextReferralId (db : DB) : Nat :=
  (db.referrals.map (fun r => r.id)).foldr max 0 + 1

/-- Row effect of the referral-bonus UPDATE: `UPDATE users SET tokens =
tokens + ?, total_earned = total_earned + ? WHERE user_id = ?` with the
constant bonus of 5 — one statement touching balance and counter. -/
def bonusRow (referrer : Nat) (u : UserRow) : UserRow :=
  if u.user_id == referrer then
    { u with tokens := u.tokens + 5, total_earned := u.total_earned + 5 }
  else u

/-- `Database.add_referral_bonus`: if a referral row for the pair already
exists, do nothing; otherwise add the constant 5-token bonus to the
referrer and insert one referral row. -/
def add_referral_bonus (now : Nat) (db : DB) (referrer referred : Nat) : DB :=
  if (db.referrals.find? (fun r =>
      r.referrer_id == referrer && r.referred_id == referred)).isSome then
    db
  else
    let db1 : DB := { db with users := db.users.map (bonusRow referrer) }
    { db1 with referrals := db1.referrals ++
        [{ id := nextReferralId db
           referrer_id := referrer
           referred_id := referred
           tokens_earned := 5
           created_at := now }] }

/-- `Database.create_user`.  The source draws one referral code with
`generate_referral_code` (`md5(str(user_id) + str(time.time()))[:8].upper()`,
an external hash primitive), so the drawn code enters the model as the
`code` argument; there is no lookup of existing codes.  The insert is
`INSERT OR REPLACE`, which in SQLite deletes every row conflicting on the
`user_id` primary key or the `UNIQUE referral_code` column and then
inserts; unnamed columns take their defaults (`tokens` 0, `is_active` 1,
`total_spent` 0, `total_earned` 0, `join_date` now).  If `referred_by` is
set, `add_referral_bonus` runs afterwards.  Returns the new code. -/
def create_user (now : Nat) (db : DB) (uid : Nat) (username : Option String)
    (first_name : String) (referred_by : Option Nat) (code : String) :
    DB × String :=
  let newRow : UserRow :=
    { user_id := uid
      username := username
      first_name := first_name
      tokens := 0
      referral_code := code
      referred_by := referred_by
      join_date := now
      last_activity := now
      is_active := true
      total_spent := 0
      total_earned := 0 }
  let db1 : DB := { db with
    users :=
      db.users.filter (fun u =>
        !(u.user_id == uid) && !(u.referral_code == code)) ++ [newRow] }
  let db2 := match referred_by with
    | some r => add_referral_bonus now db1 r uid
    | none => db1
  (db2, code)

/-- Outcome of the content-deeplink preview (`handle_content_deeplink`):
the handler only displays; it never mutates the store. -/
inductive DeeplinkResult
  | notFound
  | needRegister (price : Int) (views : Nat)
  | canAccess (price : Int) (balance : Int)
  | insufficient (shortfall : Int)
deriving DecidableEq

/-- `handle_content_deeplink`: resolve the active content row by deeplink;
unknown link → not-found message; unregistered caller → register prompt;
balance at least the price → an access button is offered (no debit here);
otherwise the buy prompt shows `tokens_required - user_tokens`, the exact
shortfall.  No branch writes to the database. -/
def handle_content_deeplink (db : DB) (uid : Nat) (d : String) :
    DB × DeeplinkResult :=
  match getActiveContent db d with
  | none => (db, .notFound)
  | some c =>
    match getUser db uid with
    | none => (db, .needRegister c.tokens_required c.views)
    | some u =>
      if c.tokens_required ≤ u.tokens then
        (db, .canAccess c.tokens_required u.tokens)
      else
        (db, .insufficient (c.tokens_required - u.tokens))

/-- Outcome of `/start`. -/
inductive StartResult
  | contentFlow (r : DeeplinkResult)
  | welcomeBack (balance : Int)
  | registered (code : String) (referred : Bool)
deriving DecidableEq

/-- Registration tail of `start_command`: an existing account gets the
welcome-back reply and nothing is written; otherwise `create_user` runs. -/
def startRegister (now : Nat) (db : DB) (uid : Nat) (username : Option String)
    (first_name : String) (referred_by : Option Nat) (code : String) :
    DB × StartResult :=
  match getUser db uid with
  | some u => (db, .welcomeBack u.tokens)
  | none =>
    let r := create_user now db uid username first_name referred_by code
    (r.1, .registered r.2 referred_by.isSome)

/-- The `/start` parameter after the transport-level parse: the source
tests `message.text.split()[1].startswith('content_')` and in the content
case recovers the deeplink as the text after the underscore; that string
test is lifted into the constructor (`content d` is a parameter
`content_<d>`, `code s` is any other parameter). -/
inductive StartParam
  | noParam
  | content (d : String)
  | code (s : String)
deriving DecidableEq

/-- `start_command`.  A `content_` parameter is dispatched to the deeplink
handler.  Otherwise the parameter is looked up as a referral code; a hit
on a different account sets `referred_by` (self-referral is dropped).  The
existing-account check runs after that lookup, exactly as in the source. -/
def start_command (now : Nat) (db : DB) (uid : Nat) (username : Option String)
    (first_name : String) (param : StartParam) (code : String) :
    DB × StartResult :=
  match param with
  | .content d =>
    let r := handle_content_deeplink db uid d
    (r.1, .contentFlow r.2)
  | .code s =>
    let referred_by : Option Nat :=
      match get_user_by_referral db s with
      | some ref => if ref.user_id == uid then none else some ref.user_id
      | none => none
    startRegister now db uid username first_name referred_by code
  | .noParam => startRegister now db uid username first_name none code

/-- The fixed package table of `handle_buy_callback`
(key → (tokens, price in rupees)); never client-priced. -/
def packageTable (key : String) : Option (Int × Int) :=
  if key == "buy_100" then some (100, 10)
  else if key == "buy_500" then some (500, 45)
  else if key == "buy_1000" then some (1000, 80)
  else if key == "buy_2000" then some (2000, 150)
  else none

/-- Fresh `AUTOINCREMENT` id for the `payments` table. -/
def nextPaymentId (db : DB) : Nat :=
  (db.payments.map (fun p => p.id)).foldr max 0 + 1

/-- `handle_buy_callback`: an unknown key is refused; a known key inserts
one `pending` payment row priced from the fixed table and returns its id. -/
def handle_buy_callback (now : Nat) (db : DB) (uid : Nat) (key : String) :
    DB × Option Nat :=
  match packageTable key with
  | none => (db, none)
  | some pkg =>
    let pid := nextPaymentId db
    ({ db with payments := db.payments ++
        [{ id := pid
           user_id := uid
           amount := pkg.2
           tokens := pkg.1
           upi_ref := none
           status := .pending
           created_at := now
           verified_at := none
           verified_by := none
           rejection_reason := none }] },
     some pid)

/-- The `SELECT p.*, ... FROM payments p JOIN users u ON p.user_id =
u.user_id WHERE p.id = ? AND p.status = 'pending'` shared by `/verify` and
`/reject`: first pending payment with the id, joined to its user row. -/
def lookupPendingPayment (db : DB) (pid : Nat) :
    Option (PaymentRow × UserRow) :=
  (db.payments.find? (fun p => p.id == pid && p.status.isPending)).bind
    (fun p => (getUser db p.user_id).map (fun u => (p, u)))

/-- Outcome of `/verify`. -/
inductive VerifyResult
  | notFoundOrProcessed
  | verifiedOk (uid : Nat) (total : Int)
deriving DecidableEq

/-- Row effect of the `/verify` UPDATE:
`UPDATE payments SET status = 'verified', verified_at = CURRENT_TIMESTAMP,
verified_by = ? WHERE id = ?`. -/
def verifyRow (adminId now pid : Nat) (q : PaymentRow) : PaymentRow :=
  if q.id == pid then
    { q with
      status := .verified
      verified_at := some now
      verified_by := some adminId }
  else q

/-- The `/verify` UPDATE as one committed query. -/
def markVerified (adminId now pid : Nat) (db : DB) : DB :=
  { db with payments := db.payments.map (verifyRow adminId now pid) }

/-- `verify_payment_command` (body behind the `admin_only` guard), after
argument parsing: `/verify <pid>` has `bonus = 0`; a second argument
supplies the bonus.  If no pending payment with the id joins to a user,
the admin is told "not found or already processed" and nothing changes.
Otherwise the payment row is updated to `verified` with the verifier
(`config.ADMIN_ID`) and the timestamp, and `update_tokens` credits
`tokens + bonus` to the owner. -/
def verify_payment_command (adminId now : Nat) (db : DB) (pid : Nat)
    (bonus : Int) : DB × VerifyResult :=
  match lookupPendingPayment db pid with
  | none => (db, .notFoundOrProcessed)
  | some pu =>
    let total := pu.1.tokens + bonus
    (update_tokens now (markVerified adminId now pid db) pu.1.user_id total,
     .verifiedOk pu.1.user_id total)

/-- Outcome of `/reject`. -/
inductive RejectResult
  | notFoundOrProcessed
  | rejectedOk (uid : Nat)
deriving DecidableEq

/-- Row effect of the `/reject` UPDATE:
`UPDATE payments SET status = 'rejected', verified_at = CURRENT_TIMESTAMP,
verified_by = ?, rejection_reason = ? WHERE id = ?`. -/
def rejectRow (adminId now : Nat) (reason : String) (pid : Nat)
    (q : PaymentRow) : PaymentRow :=
  if q.id == pid then
    { q with
      status := .rejected
      verified_at := some now
      verified_by := some adminId
      rejection_reason := some reason }
  else q

/-- The `/reject` UPDATE as one committed query. -/
def markRejected (adminId now : Nat) (reason : String) (pid : Nat)
    (db : DB) : DB :=
  { db with payments := db.payments.map (rejectRow adminId now reason pid) }

/-- `reject_payment_command` (body behind the `admin_only` guard): the same
pending-only lookup; on a hit the payment row becomes `rejected` with
verifier, timestamp and reason; no token update anywhere. -/
def reject_payment_command (adminId now : Nat) (db : DB) (pid : Nat)
    (reason : String) : DB × RejectResult :=
  match lookupPendingPayment db pid with
  | none => (db, .notFoundOrProcessed)
  | some pu =>
    (markRejected adminId now reason pid db, .rejectedOk pu.1.user_id)

/-- The three mutating actions of `/admin_tokens`. -/
inductive TokenAction
  | add
  | remove
  | set
deriving DecidableEq

/-- Outcome of `/admin_tokens`. -/
inductive AdminTokensResult
  | userNotFound
  | notEnough (current : Int)
  | okDone (newBalance : Int)
deriving DecidableEq

/-- `admin_tokens_command` (body behind the `admin_only` guard), mutating
actions only: `add` credits `amount`; `remove` refuses when the current
balance is below `amount`, else debits it; `set` applies the signed
difference to reach `amount`.  `amount` is `int(args[3])`, an arbitrary
integer. -/
def admin_tokens_command (now : Nat) (db : DB) (action : TokenAction)
    (uid : Nat) (amount : Int) : DB × AdminTokensResult :=
  match getUser db uid with
  | none => (db, .userNotFound)
  | some u =>
    match action with
    | .add => (update_tokens now db uid amount, .okDone (u.tokens + amount))
    | .remove =>
      if u.tokens < amount then (db, .notEnough u.tokens)
      else (update_tokens now db uid (-amount), .okDone (u.tokens - amount))
    | .set =>
      (update_tokens now db uid (amount - u.tokens), .okDone amount)

/-- Result of a guarded handler: either the access-denied reply, or the
handler ran and produced its own output. -/
inductive Guarded (α : Type)
  | denied
  | ran (a : α)
deriving DecidableEq

/-- The `admin_only` decorator: a sender other than the single configured
`config.ADMIN_ID` gets the access-denied reply and the wrapped handler
body is never entered; otherwise the handler runs. -/
def admin_only {α : Type} (adminId : Nat) (handler : DB → DB × α)
    (senderId : Nat) (db : DB) : DB × Guarded α :=
  if senderId == adminId then
    let r := handler db
    (r.1, .ran r.2)
  else (db, .denied)

/-- The `admin_`-prefix branch of `handle_callbacks`: for callback data
starting with `admin_` the sender is checked against `config.ADMIN_ID`
before `handle_admin_callback` is reached; a mismatch answers
"Access denied!" and returns. -/
def handle_callbacks_admin {α : Type} (adminId : Nat)
    (adminHandler : DB → DB × α) (userId : Nat) (db : DB) : DB × Guarded α :=
  if userId == adminId then
    let r := adminHandler db
    (r.1, .ran r.2)
  else (db, .denied)

/-- Outcome of the unlock step. -/
inductive UnlockResult
  | notFound
  | insufficientBalance (shortfall : Int)
  | contentRef (fileId : String)
deriving DecidableEq

/-- Modelled from the spec: the row effect of the unlock debit — the price
leaves the balance and enters the lifetime spent counter together, in one
committed mutation. -/
def unlockDebitRow (now : Nat) (uid : Nat) (price : Int) (v : UserRow) :
    UserRow :=
  if v.user_id == uid then
    { v with
      tokens := v.tokens - price
      total_spent := v.total_spent + price
      last_activity := now }
  else v

/-- Modelled from the spec: the row effect of the view-counter increment. -/
def viewBumpRow (d : String) (e : ContentRow) : ContentRow :=
  if e.deeplink == d then { e with views := e.views + 1 } else e

/-- Modelled from the spec: the content-unlock handler.
`handle_content_callback`, invoked from `handle_callbacks` on
`content_`-prefixed callback data (src/main.py:1325), is referenced but
not defined anywhere in the source file, so the operation is taken from
§4.1 `unlock_content` of the spec: resolve content by deeplink; if found
and the account balance is at least the price, atomically debit the price
(balance and lifetime spent counter together), increment the view counter,
and return the media reference; a balance below the price reports the
shortfall and changes nothing. -/
def unlock_content (now : Nat) (db : DB) (uid : Nat) (d : String) :
    DB × UnlockResult :=
  match getActiveContent db d with
  | none => (db, .notFound)
  | some c =>
    match getUser db uid with
    | none => (db, .notFound)
    | some u =>
      if c.tokens_required ≤ u.tokens then
        let db1 : DB := { db with
          users := db.users.map (unlockDebitRow now uid c.tokens_required) }
        let db2 : DB := { db1 with
          content := db1.content.map (viewBumpRow d) }
        (db2, .contentRef c.file_id)
      else
        (db, .insufficientBalance (c.tokens_required - u.tokens))

/-- The committed token-mutating events of the workflow, post-parsing. -/
inductive Op
  | register (uid : Nat) (username : Option String) (fname : String)
      (param : StartParam) (code : String)
  | buy (uid : Nat) (key : String)
  | adminTokens (action : TokenAction) (uid : Nat) (amount : Int)
  | verify (pid : Nat) (bonus : Int)
  | reject (pid : Nat) (reason : String)

/-- One committed operation. -/
def runOp (adminId now : Nat) (db : DB) : Op → DB
  | .register uid un fn param code =>
    (start_command now db uid un fn param code).1
  | .buy uid key => (handle_buy_callback now db uid key).1
  | .adminTokens a uid amt => (admin_tokens_command now db a uid amt).1
  | .verify pid bonus => (verify_payment_command adminId now db pid bonus).1
  | .reject pid reason => (reject_payment_command adminId now db pid reason).1

/-- A committed sequence of operations. -/
def runOps (adminId now : Nat) (db : DB) : List Op → DB
  | [] => db
  | op :: rest => runOps adminId now (runOp adminId now db op) rest

/-- The per-account ledger invariant `balance = earned_total − spent_total`. -/
def balInv (db : DB) : Prop :=
  ∀ u ∈ db.users, u.tokens = u.total_earned - u.total_spent

/-- No committed balance is negative. -/
def nonnegInv (db : DB) : Prop :=
  ∀ u ∈ db.users, 0 ≤ u.tokens

/-- Every payment row carries a nonnegative token quantity. -/
def payNonneg (db : DB) : Prop :=
  ∀ p ∈ db.payments, 0 ≤ p.tokens

/-- `user_id` is a primary key. -/
def usersNodup (db : DB) : Prop :=
  (db.users.map (fun u => u.user_id)).Nodup

/-- `payments.id` is a primary key. -/
def payIdsNodup (db : DB) : Prop :=
  (db.payments.map (fun p => p.id)).Nodup

/-- Admin-entered quantities that keep balances nonnegative: a nonnegative
`/admin_tokens` amount and a nonnegative `/verify` bonus.  (A negative
`add`/`set` amount is exactly what breaks the nonnegativity claim.) -/
def Op.goodAmounts : Op → Prop
  | .adminTokens _ _ amt => 0 ≤ amt
  | .verify _ bonus => 0 ≤ bonus
  | _ => True

instance (db : DB) : Decidable (balInv db) :=
  inferInstanceAs (Decidable (∀ u ∈ db.users, u.tokens = u.total_earned - u.total_spent))

instance (db : DB) : Decidable (nonnegInv db) :=
  inferInstanceAs (Decidable (∀ u ∈ db.users, 0 ≤ u.tokens))

instance (db : DB) : Decidable (payNonneg db) :=
  inferInstanceAs (Decidable (∀ p ∈ db.payments, 0 ≤ p.tokens))

instance (db : DB) : Decidable (usersNodup db) := by
  unfold usersNodup
  exact List.nodupDecidable _

instance (db : DB) : Decidable (payIdsNodup db) := by
  unfold payIdsNodup
  exact List.nodupDecidable _

instance : (op : Op) → Decidable op.goodAmounts
  | .adminTokens _ _ amt => inferInstanceAs (Decidable (0 ≤ amt))
  | .verify _ bonus => inferInstanceAs (Decidable (0 ≤ bonus))
  | .register _ _ _ _ _ => inferInstanceAs (Decidable True)
  | .buy _ _ => inferInstanceAs (Decidable True)
  | .reject _ _ => inferInstanceAs (Decidable True)

/-- The empty store, as created by `init_database` (the `bot_stats` seed
rows are not modelled). -/
def emptyDB : DB := { users := [], payments := [], content := [], referrals := [] }

/-- Fixture: a registered account holding 10 tokens. -/
def aliceW : UserRow :=
  { user_id := 7
    username := some "alice"
    first_name := "Alice"
    tokens := 10
    referral_code := "AAAA1111"
    referred_by := none
    join_date := 0
    last_activity := 0
    is_active := true
    total_spent := 0
    total_earned := 10 }

/-- Fixture: a registered account holding 3 tokens. -/
def carolW : UserRow :=
  { user_id := 3
    username := none
    first_name := "Carol"
    tokens := 3
    referral_code := "CCCC3333"
    referred_by := none
    join_date := 0
    last_activity := 0
    is_active := true
    total_spent := 0
    total_earned := 3 }

/-- Fixture: an account with a zero balance and zero counters. -/
def zeroW : UserRow :=
  { user_id := 7
    username := none
    first_name := "Zed"
    tokens := 0
    referral_code := "Z0Z0Z0Z0"
    referred_by := none
    join_date := 0
    last_activity := 0
    is_active := true
    total_spent := 0
    total_earned := 0 }

/-- Fixture: the account holding referral code `ABC` that a colliding
re-draw of the code destroys. -/
def vicW : UserRow :=
  { user_id := 1
    username := none
    first_name := "Vic"
    tokens := 50
    referral_code := "ABC"
    referred_by := none
    join_date := 0
    last_activity := 0
    is_active := true
    total_spent := 0
    total_earned := 50 }

/-- Fixture: a pending 100-token / 10-rupee payment of account 7. -/
def payW : PaymentRow :=
  { id := 1
    user_id := 7
    amount := 10
    tokens := 100
    upi_ref := none
    status := .pending
    created_at := 0
    verified_at := none
    verified_by := none
    rejection_reason := none }

/-- Fixture: an already-verified payment of account 7. -/
def payDoneW : PaymentRow :=
  { id := 2
    user_id := 7
    amount := 10
    tokens := 100
    upi_ref := none
    status := .verified
    created_at := 0
    verified_at := some 1
    verified_by := some 99
    rejection_reason := none }

/-- Fixture: an active content item priced at 10 tokens. -/
def vidW : ContentRow :=
  { id := 1
    title := "Video"
    description := "A video"
    file_id := "FILE42"
    file_type := "video"
    tokens_required := 10
    deeplink := "abc123def456"
    created_at := 0
    created_by := some 99
    views := 5
    is_active := true }

/-- Fixture store for the settlement witnesses. -/
def dbVerifyW : DB :=
  { users := [aliceW], payments := [payW], content := [], referrals := [] }

/-- Fixture store holding only a terminal (verified) payment. -/
def dbDoneW : DB :=
  { users := [aliceW], payments := [payDoneW], content := [], referrals := [] }

/-- Fixture store for the content witnesses (Carol cannot afford the
video, Alice can). -/
def dbContentW : DB :=
  { users := [aliceW, carolW], payments := [], content := [vidW], referrals := [] }

/-- Fixture store holding one zero-balance account. -/
def dbZeroW : DB :=
  { users := [zeroW], payments := [], content := [], referrals := [] }

/-- Fixture store holding the account whose code collides. -/
def dbVicW : DB :=
  { users := [vicW], payments := [], content := [], referrals := [] }

/-- A maximally destructive admin handler, used to witness that the guard
never invokes the handler body for a non-admin sender. -/
def wipeHandler : DB → DB × Nat := fun _ => (emptyDB, 0)

/-- A committed operation sequence exercising registration, a referral,
a purchase, a settlement, all three admin token actions, and a rejection,
used as the concrete input of the ledger-invariant witness. -/
def opsW3 : List Op :=
  [.register 7 none "A" .noParam "AAAA7777",
   .register 8 none "B" (.code "AAAA7777") "BBBB8888",
   .buy 8 "buy_100",
   .verify 1 0,
   .adminTokens .add 7 5,
   .adminTokens .remove 7 3,
   .adminTokens .set 8 120,
   .reject 2 "nope"]

/-! ## Helper lemmas -/

theorem find_map_congr {α : Type} (l : List α) (f : α → α) (p : α → Bool)
    (hf : ∀ x, p (f x) = p x) : (l.map f).find? p = (l.find? p).map f := by
  rw [List.find?_map]
  have h : p ∘ f = p := funext hf
  rw [h]

theorem find_key_of_nodup {α β : Type} [DecidableEq β] {l : List α} {f : α → β}
    {g : α → Bool} {a : α} (hn : (l.map f).Nodup) (ha : a ∈ l) (hg : g a = true) :
    l.find? (fun x => f x == f a && g x) = some a := by
  induction l with
  | nil => cases ha
  | cons b t ih =>
    rw [List.map_cons, List.nodup_cons] at hn
    rcases List.mem_cons.mp ha with h | h
    · subst h
      exact List.find?_cons_of_pos t (by simp [hg])
    · by_cases hb : f b = f a
      · exact absurd (by rw [hb]; exact List.mem_map_of_mem f h) hn.1
      · rw [List.find?_cons_of_neg t (by simp [hb])]
        exact ih hn.2 h

theorem find_key_of_nodup_plain {α β : Type} [DecidableEq β] {l : List α}
    {f : α → β} {a : α} (hn : (l.map f).Nodup) (ha : a ∈ l) :
    l.find? (fun x => f x == f a) = some a := by
  induction l with
  | nil => cases ha
  | cons b t ih =>
    rw [List.map_cons, List.nodup_cons] at hn
    rcases List.mem_cons.mp ha with h | h
    · subst h
      exact List.find?_cons_of_pos t (by simp)
    · by_cases hb : f b = f a
      · exact absurd (by rw [hb]; exact List.mem_map_of_mem f h) hn.1
      · rw [List.find?_cons_of_neg t (by simp [hb])]
        exact ih hn.2 h

theorem find_user_map (l : List UserRow) (f : UserRow → UserRow)
    (hf : ∀ v, (f v).user_id = v.user_id) (uid : Nat) :
    (l.map f).find? (fun u => u.user_id == uid)
      = (l.find? (fun u => u.user_id == uid)).map f := by
  rw [List.find?_map]
  have h : ((fun u : UserRow => u.user_id == uid) ∘ f)
      = (fun u : UserRow => u.user_id == uid) := by
    funext v
    simp [Function.comp, hf]
  rw [h]

theorem getUser_mapUsers (db : DB) (f : UserRow → UserRow)
    (hf : ∀ v, (f v).user_id = v.user_id) (uid : Nat) :
    getUser { db with users := db.users.map f } uid = (getUser db uid).map f := by
  show (db.users.map f).find? (fun u => u.user_id == uid)
      = (db.users.find? (fun u => u.user_id == uid)).map f
  exact find_user_map db.users f hf uid

theorem getUser_applyTokensUpdate (now : Nat) (db : DB) (uid uid2 : Nat) (t : Int) :
    getUser (applyTokensUpdate now db uid t) uid2 =
      (getUser db uid2).map (fun u =>
        if u.user_id == uid then
          { u with tokens := u.tokens + t, last_activity := now }
        else u) :=
  getUser_mapUsers db _ (fun v => by by_cases h : v.user_id == uid <;> simp [h]) uid2

theorem getUser_applyCounterUpdate (db : DB) (uid uid2 : Nat) (t : Int) :
    getUser (applyCounterUpdate db uid t) uid2 =
      (getUser db uid2).map (fun u =>
        if u.user_id == uid then
          (if 0 < t then { u with total_earned := u.total_earned + t }
           else { u with total_spent := u.total_spent + |t| })
        else u) := by
  unfold applyCounterUpdate
  by_cases ht : 0 < t
  · simp only [if_pos ht]
    exact getUser_mapUsers db _ (fun v => by by_cases h : v.user_id == uid <;> simp [h]) uid2
  · simp only [if_neg ht]
    exact getUser_mapUsers db _ (fun v => by by_cases h : v.user_id == uid <;> simp [h]) uid2

theorem getUser_user_id {db : DB} {uid : Nat} {u : UserRow}
    (hu : getUser db uid = some u) : u.user_id = uid := by
  have h := List.find?_some hu
  simpa using h

theorem getUser_mem {db : DB} {uid : Nat} {u : UserRow}
    (hu : getUser db uid = some u) : u ∈ db.users :=
  List.mem_of_find?_eq_some hu

theorem getUser_update_tokens {db : DB} {uid : Nat} {u : UserRow} (now : Nat) (t : Int)
    (hu : getUser db uid = some u) :
    getUser (update_tokens now db uid t) uid = some
      { u with
        tokens := u.tokens + t
        last_activity := now
        total_earned := if 0 < t then u.total_earned + t else u.total_earned
        total_spent := if 0 < t then u.total_spent else u.total_spent + |t| } := by
  have heq : u.user_id = uid := getUser_user_id hu
  unfold update_tokens
  rw [getUser_applyCounterUpdate, getUser_applyTokensUpdate, hu]
  by_cases ht : 0 < t <;> simp [heq, ht]

theorem update_tokens_payments (now : Nat) (db : DB) (uid : Nat) (t : Int) :
    (update_tokens now db uid t).payments = db.payments := by
  unfold update_tokens applyCounterUpdate applyTokensUpdate
  by_cases ht : 0 < t <;> simp [ht]

theorem update_tokens_content (now : Nat) (db : DB) (uid : Nat) (t : Int) :
    (update_tokens now db uid t).content = db.content := by
  unfold update_tokens applyCounterUpdate applyTokensUpdate
  by_cases ht : 0 < t <;> simp [ht]

theorem update_tokens_referrals (now : Nat) (db : DB) (uid : Nat) (t : Int) :
    (update_tokens now db uid t).referrals = db.referrals := by
  unfold update_tokens applyCounterUpdate applyTokensUpdate
  by_cases ht : 0 < t <;> simp [ht]

/-! ## C9 — insufficient balance reports the exact shortfall -/

/-- C9: for a registered account whose balance is strictly below an active
content item's price, the deeplink request reports the exact shortfall
`price - balance` and returns the store unchanged (no balance, counter or
view-counter change). -/
theorem deeplink_reports_exact_shortfall (db : DB) (uid : Nat) (d : String)
    (c : ContentRow) (u : UserRow)
    (hc : getActiveContent db d = some c)
    (hu : getUser db uid = some u)
    (hlt : u.tokens < c.tokens_required) :
    handle_content_deeplink db uid d
      = (db, .insufficient (c.tokens_required - u.tokens)) := by
  unfold handle_content_deeplink
  simp only [hc, hu]
  rw [if_neg (not_le.mpr hlt)]

/-- C9 witness: Carol holds 3 tokens and requests the 10-token video; the
shortfall reported is exactly 7 and the store is unchanged. -/
theorem deeplink_reports_exact_shortfall_witness :
    handle_content_deeplink dbContentW 3 "abc123def456"
      = (dbContentW, .insufficient 7) :=
  deeplink_reports_exact_shortfall dbContentW 3 "abc123def456" vidW carolW
    (by decide) (by decide) (by decide)

/-! ## C10 — admin-only gating -/

/-- C10: for any sender other than the configured administrator, both the
`admin_only` decorator (guarding `/verify`, `/reject`, `/admin_tokens`,
`/admin_upload`, `/admin_stats`) and the `admin_`-prefix branch of
`handle_callbacks` refuse with the access-denied reply, leave the store
untouched, and never invoke the wrapped handler body — for every possible
handler body. -/
theorem admin_gates_deny {α : Type} (adminId senderId : Nat)
    (handler : DB → DB × α) (db : DB) (h : senderId ≠ adminId) :
    admin_only adminId handler senderId db = (db, .denied) ∧
    handle_callbacks_admin adminId handler senderId db = (db, .denied) := by
  have hb : (senderId == adminId) = false := by simp [h]
  unfold admin_only handle_callbacks_admin
  rw [hb]
  exact ⟨rfl, rfl⟩

/-- C10 witness: sender 7 is not admin 99; even a handler that would wipe
the whole store is never run, and the reply is the denial. -/
theorem admin_gates_deny_witness :
    admin_only 99 wipeHandler 7 dbVerifyW = (dbVerifyW, .denied) ∧
    handle_callbacks_admin 99 wipeHandler 7 dbVerifyW = (dbVerifyW, .denied) :=
  admin_gates_deny 99 7 wipeHandler dbVerifyW (by decide)

/-! ## C5 — idempotent re-registration -/

theorem startRegister_existing {db : DB} {uid : Nat} {u : UserRow} (now : Nat)
    (un : Option String) (fn : String) (rb : Option Nat) (code : String)
    (hu : getUser db uid = some u) :
    startRegister now db uid un fn rb code = (db, .welcomeBack u.tokens) := by
  unfold startRegister
  rw [hu]

/-- C5: a `/start` event for an account id that already exists (with any
referral parameter, i.e. any parameter that is not a `content_` deeplink)
returns the welcome-back reply and leaves the whole store unchanged: the
stored referral code is untouched, no credit is issued, and no referral
row or referrer bonus is created. -/
theorem start_idempotent (now : Nat) (db : DB) (uid : Nat) (un : Option String)
    (fn : String) (param : StartParam) (code : String) (u : UserRow)
    (hparam : ∀ d, param ≠ StartParam.content d)
    (hu : getUser db uid = some u) :
    start_command now db uid un fn param code = (db, .welcomeBack u.tokens) := by
  cases param with
  | noParam => exact startRegister_existing now un fn none code hu
  | content d => exact absurd rfl (hparam d)
  | code s => exact startRegister_existing now un fn _ code hu

/-- C5 witness: account 7 already exists (balance 10); re-sending `/start`
with Carol's referral code as parameter changes nothing and replies
welcome-back. -/
theorem start_idempotent_witness :
    start_command 5 dbContentW 7 (some "alice") "Alice"
        (StartParam.code "CCCC3333") "QQQQ9999"
      = (dbContentW, .welcomeBack 10) :=
  start_idempotent 5 dbContentW 7 (some "alice") "Alice"
    (StartParam.code "CCCC3333") "QQQQ9999" aliceW
    (fun d h => StartParam.noConfusion h) (by decide)

/-! ## C1, C2 — payment settlement -/

theorem getPayment_eq (db : DB) (pid : Nat) :
    getPayment db pid = db.payments.find? (fun q => q.id == pid) := rfl

theorem payments_unique {db : DB} (hids : payIdsNodup db) {p q : PaymentRow}
    (hp : p ∈ db.payments) (hq : q ∈ db.payments) (hid : p.id = q.id) : p = q :=
  List.inj_on_of_nodup_map hids hp hq hid

theorem lookupPendingPayment_some {db : DB} {p : PaymentRow} {u : UserRow}
    (hids : payIdsNodup db) (hp : p ∈ db.payments) (hpend : p.status = .pending)
    (hu : getUser db p.user_id = some u) :
    lookupPendingPayment db p.id = some (p, u) := by
  unfold lookupPendingPayment
  rw [find_key_of_nodup (f := fun q : PaymentRow => q.id) hids hp
    (by rw [hpend]; rfl)]
  show (getUser db p.user_id).map (fun v => (p, v)) = some (p, u)
  rw [hu]
  rfl

theorem lookupPendingPayment_none {db : DB} {pid : Nat}
    (h : ∀ q ∈ db.payments, ¬(q.id == pid && q.status.isPending) = true) :
    lookupPendingPayment db pid = none := by
  unfold lookupPendingPayment
  rw [List.find?_eq_none.mpr h]
  rfl

/-- C1: settling a pending payment with `/verify <id>` (no bonus argument,
so the credited amount is the payment's own token quantity) flips the
payment to `verified`, stamps the verifying admin and the verification
timestamp, credits the owning account by exactly the payment's token
quantity, and a repeated `/verify` on the same id reports
already-processed and changes nothing further — the credit happens exactly
once, and only together with the `verified` transition. -/
theorem verify_settles_pending (adminId now now2 : Nat) (db : DB)
    (p : PaymentRow) (u : UserRow)
    (hids : payIdsNodup db) (hp : p ∈ db.payments)
    (hpend : p.status = .pending) (hu : getUser db p.user_id = some u) :
    (verify_payment_command adminId now db p.id 0).2
        = .verifiedOk p.user_id p.tokens ∧
    getPayment (verify_payment_command adminId now db p.id 0).1 p.id
        = some { p with
            status := .verified
            verified_at := some now
            verified_by := some adminId } ∧
    (getUser (verify_payment_command adminId now db p.id 0).1 p.user_id).map
        (fun v => v.tokens) = some (u.tokens + p.tokens) ∧
    verify_payment_command adminId now2
        (verify_payment_command adminId now db p.id 0).1 p.id 0
      = ((verify_payment_command adminId now db p.id 0).1,
         .notFoundOrProcessed) := by
  have hlook : lookupPendingPayment db p.id = some (p, u) :=
    lookupPendingPayment_some hids hp hpend hu
  have hrun : verify_payment_command adminId now db p.id 0
      = (update_tokens now (markVerified adminId now p.id db) p.user_id
          (p.tokens + 0),
         .verifiedOk p.user_id (p.tokens + 0)) := by
    unfold verify_payment_command
    rw [hlook]
  have hfpres : ∀ q : PaymentRow,
      ((verifyRow adminId now p.id q).id == p.id) = (q.id == p.id) := by
    intro q
    unfold verifyRow
    by_cases h : q.id == p.id <;> simp [h]
  have hu1 : getUser (markVerified adminId now p.id db) p.user_id = some u := hu
  refine ⟨?_, ?_, ?_, ?_⟩
  · rw [hrun]
    simp
  · rw [hrun, getPayment_eq, update_tokens_payments]
    show (db.payments.map (verifyRow adminId now p.id)).find?
        (fun q => q.id == p.id)
      = some { p with
          status := .verified
          verified_at := some now
          verified_by := some adminId }
    rw [find_map_congr _ _ _ hfpres]
    rw [find_key_of_nodup_plain (f := fun q : PaymentRow => q.id) hids hp]
    simp [verifyRow]
  · rw [hrun]
    show (getUser (update_tokens now (markVerified adminId now p.id db)
        p.user_id (p.tokens + 0)) p.user_id).map (fun v => v.tokens)
      = some (u.tokens + p.tokens)
    rw [getUser_update_tokens now (p.tokens + 0) hu1]
    simp
  · rw [hrun]
    have hnone : lookupPendingPayment (update_tokens now
        (markVerified adminId now p.id db) p.user_id (p.tokens + 0)) p.id
        = none := by
      apply lookupPendingPayment_none
      intro q hq
      rw [update_tokens_payments] at hq
      have hq2 : q ∈ db.payments.map (verifyRow adminId now p.id) := hq
      obtain ⟨r, hr, rfl⟩ := List.mem_map.mp hq2
      by_cases hrid : r.id = p.id
      · have : r = p := payments_unique hids hr hp hrid
        subst this
        simp [verifyRow, PayStatus.isPending]
      · simp [verifyRow, hrid]
    unfold verify_payment_command
    rw [hnone]

/-- C1 witness: Alice (balance 10) owns pending payment 1 for 100 tokens;
`/verify 1` by admin 99 at time 11 verifies it, stamps admin and time,
raises her balance to 110, and `/verify 1` again at time 12 is an
already-processed no-op. -/
theorem verify_settles_pending_witness :
    (verify_payment_command 99 11 dbVerifyW payW.id 0).2
        = .verifiedOk payW.user_id payW.tokens ∧
    getPayment (verify_payment_command 99 11 dbVerifyW payW.id 0).1 payW.id
        = some { payW with
            status := .verified
            verified_at := some 11
            verified_by := some 99 } ∧
    (getUser (verify_payment_command 99 11 dbVerifyW payW.id 0).1
        payW.user_id).map (fun v => v.tokens)
        = some (aliceW.tokens + payW.tokens) ∧
    verify_payment_command 99 12
        (verify_payment_command 99 11 dbVerifyW payW.id 0).1 payW.id 0
      = ((verify_payment_command 99 11 dbVerifyW payW.id 0).1,
         .notFoundOrProcessed) :=
  verify_settles_pending 99 11 12 dbVerifyW payW aliceW (by decide) (by decide)
    (by decide) (by decide)

/-- C2: a payment whose status is already terminal (`verified` or
`rejected`) is untouched by any further `/verify` or `/reject`: both
report "not found or already processed" to the acting admin and return
the store unchanged; moreover `/reject` never changes any user row
(no balance effect), pending target or not. -/
theorem terminal_status_immutable (adminId now : Nat) (db : DB)
    (p : PaymentRow) (bonus : Int) (reason : String)
    (hids : payIdsNodup db) (hp : p ∈ db.payments)
    (hterm : p.status = .verified ∨ p.status = .rejected) :
    verify_payment_command adminId now db p.id bonus
        = (db, .notFoundOrProcessed) ∧
    reject_payment_command adminId now db p.id reason
        = (db, .notFoundOrProcessed) ∧
    ∀ pid r, (reject_payment_command adminId now db pid r).1.users
        = db.users := by
  have hnp : p.status.isPending = false := by
    rcases hterm with h | h <;> rw [h] <;> rfl
  have hnone : lookupPendingPayment db p.id = none := by
    apply lookupPendingPayment_none
    intro q hq
    by_cases hqid : q.id = p.id
    · have : q = p := payments_unique hids hq hp hqid
      subst this
      simp [hnp]
    · simp [hqid]
  refine ⟨?_, ?_, ?_⟩
  · unfold verify_payment_command
    rw [hnone]
  · unfold reject_payment_command
    rw [hnone]
  · intro pid r
    unfold reject_payment_command
    cases h : lookupPendingPayment db pid <;> rfl

/-- C2 witness: payment 2 is already verified; `/verify 2` and `/reject 2`
by admin 99 both answer already-processed and leave the store unchanged,
and `/reject` leaves every user row unchanged. -/
theorem terminal_status_immutable_witness :
    verify_payment_command 99 13 dbDoneW payDoneW.id 0
        = (dbDoneW, .notFoundOrProcessed) ∧
    reject_payment_command 99 13 dbDoneW payDoneW.id "dup"
        = (dbDoneW, .notFoundOrProcessed) ∧
    ∀ pid r, (reject_payment_command 99 13 dbDoneW pid r).1.users
        = dbDoneW.users :=
  terminal_status_immutable 99 13 dbDoneW payDoneW 0 "dup" (by decide)
    (by decide) (by decide)

/-! ## C4 — corrected: the two halves of `update_tokens` commit separately -/

/-- C4 counterexample: crediting 5 tokens to account 7 is two separate
commits.  The state after the first `execute_query` (balance update) is a
committed, observable state that differs from both the initial and the
final state and shows the balance updated (5) while the lifetime counter
is not (0); and when the second query fails, `update_tokens` terminates in
exactly that partially-applied state — `execute_query` swallows the error,
so no `StorageUnavailable` (or any error) is reported and the partial
application stands.  This refutes both the indivisibility and the
no-partial-application-on-failure parts of the claim. -/
theorem update_tokens_not_atomic_cex :
    applyTokensUpdate 1 dbZeroW 7 5 ≠ dbZeroW ∧
    applyTokensUpdate 1 dbZeroW 7 5 ≠ update_tokens 1 dbZeroW 7 5 ∧
    update_tokens_f true false 1 dbZeroW 7 5 = applyTokensUpdate 1 dbZeroW 7 5 ∧
    (getUser (applyTokensUpdate 1 dbZeroW 7 5) 7).map
        (fun u => (u.tokens, u.total_earned, u.total_spent))
      = some (5, 0, 0) := by
  decide

/-- C4 amended: `update_tokens` issues two separately committed UPDATE
queries — the balance (plus `last_activity`) first, the matching lifetime
counter second.  When both commit, the final state carries both effects;
between the commits, and when the second query fails, the balance is
updated while the counter is unchanged; when both queries fail nothing
changes; and in no case is any error reported to the caller. -/
theorem update_tokens_two_commits (now : Nat) (db : DB) (uid : Nat) (t : Int)
    (u : UserRow) (hu : getUser db uid = some u) :
    getUser (update_tokens now db uid t) uid = some
      { u with
        tokens := u.tokens + t
        last_activity := now
        total_earned := if 0 < t then u.total_earned + t else u.total_earned
        total_spent := if 0 < t then u.total_spent else u.total_spent + |t| } ∧
    update_tokens_f true false now db uid t = applyTokensUpdate now db uid t ∧
    getUser (applyTokensUpdate now db uid t) uid
      = some { u with tokens := u.tokens + t, last_activity := now } ∧
    update_tokens_f false false now db uid t = db := by
  have heq : u.user_id = uid := getUser_user_id hu
  refine ⟨getUser_update_tokens now t hu, rfl, ?_, rfl⟩
  rw [getUser_applyTokensUpdate, hu]
  simp [heq]

/-- C4 amended witness: crediting 5 to the zero-balance account 7. -/
theorem update_tokens_two_commits_witness :
    getUser (update_tokens 1 dbZeroW 7 5) 7 = some
      { zeroW with
        tokens := zeroW.tokens + 5
        last_activity := 1
        total_earned := if 0 < (5 : Int) then zeroW.total_earned + 5
          else zeroW.total_earned
        total_spent := if 0 < (5 : Int) then zeroW.total_spent
          else zeroW.total_spent + |(5 : Int)| } ∧
    update_tokens_f true false 1 dbZeroW 7 5 = applyTokensUpdate 1 dbZeroW 7 5 ∧
    getUser (applyTokensUpdate 1 dbZeroW 7 5) 7
      = some { zeroW with tokens := zeroW.tokens + 5, last_activity := 1 } ∧
    update_tokens_f false false 1 dbZeroW 7 5 = dbZeroW :=
  update_tokens_two_commits 1 dbZeroW 7 5 zeroW (by decide)

/-! ## C6 — corrected: a new account starts with 0 tokens, not a positive
grant -/

/-- C6 counterexample: registering a fresh account 7 into the empty store
leaves it with balance 0 (the `tokens` column default; the welcome message
itself prints "Starting tokens: 0"), not the positive 10-token grant of
the claim. -/
theorem new_account_zero_balance_cex :
    (getUser (start_command 0 emptyDB 7 none "A" .noParam "Z9Z9Z9Z9").1 7).map
        (fun u => u.tokens) = some 0 ∧
    (getUser (start_command 0 emptyDB 7 none "A" .noParam "Z9Z9Z9Z9").1 7).map
        (fun u => u.tokens) ≠ some 10 := by
  decide

theorem getUser_add_referral_bonus_other (now : Nat) (db : DB)
    (r b uid : Nat) (hne : uid ≠ r) :
    getUser (add_referral_bonus now db r b) uid = getUser db uid := by
  unfold add_referral_bonus
  by_cases hex : (db.referrals.find? (fun x =>
      x.referrer_id == r && x.referred_id == b)).isSome
  · rw [if_pos hex]
  · rw [if_neg hex]
    show (db.users.map (bonusRow r)).find? (fun u => u.user_id == uid)
        = getUser db uid
    rw [find_user_map _ _ (fun v => by
      unfold bonusRow
      by_cases h : v.user_id == r <;> simp [h]) uid]
    cases hu : db.users.find? (fun u => u.user_id == uid) with
    | none =>
      have hu2 : getUser db uid = none := hu
      rw [hu2]
      rfl
    | some u =>
      have hu2 : getUser db uid = some u := hu
      rw [hu2]
      have hid : u.user_id = uid := getUser_user_id hu2
      show some (bonusRow r u) = some u
      unfold bonusRow
      rw [if_neg (by simp [hid, hne])]

theorem getUser_create_user_self (now : Nat) (db : DB) (uid : Nat)
    (un : Option String) (fn : String) (rb : Option Nat) (code : String)
    (hrb : ∀ r, rb = some r → r ≠ uid) :
    getUser (create_user now db uid un fn rb code).1 uid = some
      { user_id := uid
        username := un
        first_name := fn
        tokens := 0
        referral_code := code
        referred_by := rb
        join_date := now
        last_activity := now
        is_active := true
        total_spent := 0
        total_earned := 0 } := by
  have h1 : getUser { db with
      users := db.users.filter (fun v =>
          !(v.user_id == uid) && !(v.referral_code == code))
        ++ [({ user_id := uid
               username := un
               first_name := fn
               tokens := 0
               referral_code := code
               referred_by := rb
               join_date := now
               last_activity := now
               is_active := true
               total_spent := 0
               total_earned := 0 } : UserRow)] } uid
      = some { user_id := uid
               username := un
               first_name := fn
               tokens := 0
               referral_code := code
               referred_by := rb
               join_date := now
               last_activity := now
               is_active := true
               total_spent := 0
               total_earned := 0 } := by
    show ((db.users.filter (fun v =>
          !(v.user_id == uid) && !(v.referral_code == code))
        ++ [({ user_id := uid
               username := un
               first_name := fn
               tokens := 0
               referral_code := code
               referred_by := rb
               join_date := now
               last_activity := now
               is_active := true
               total_spent := 0
               total_earned := 0 } : UserRow)]).find?
          (fun v => v.user_id == uid))
      = some { user_id := uid
               username := un
               first_name := fn
               tokens := 0
               referral_code := code
               referred_by := rb
               join_date := now
               last_activity := now
               is_active := true
               total_spent := 0
               total_earned := 0 }
    rw [List.find?_append]
    have h2 : (db.users.filter (fun v =>
        !(v.user_id == uid) && !(v.referral_code == code))).find?
          (fun v => v.user_id == uid) = none := by
      apply List.find?_eq_none.mpr
      intro x hx
      have hx2 := (List.mem_filter.mp hx).2
      simp at hx2 ⊢
      exact hx2.1
    rw [h2]
    rw [List.find?_cons_of_pos _ (by simp)]
    rfl
  cases rb with
  | none => exact h1
  | some r =>
    show getUser (add_referral_bonus now { db with
        users := db.users.filter (fun v =>
            !(v.user_id == uid) && !(v.referral_code == code))
          ++ [({ user_id := uid
                 username := un
                 first_name := fn
                 tokens := 0
                 referral_code := code
                 referred_by := some r
                 join_date := now
                 last_activity := now
                 is_active := true
                 total_spent := 0
                 total_earned := 0 } : UserRow)] } r uid) uid
      = some { user_id := uid
               username := un
               first_name := fn
               tokens := 0
               referral_code := code
               referred_by := some r
               join_date := now
               last_activity := now
               is_active := true
               total_spent := 0
               total_earned := 0 }
    rw [getUser_add_referral_bonus_other now _ r uid uid
      (Ne.symm (hrb r rfl))]
    exact h1

/-- C6 amended: every newly created account — registered with no
parameter or with any referral parameter, whether or not a referrer bonus
is credited alongside — starts with balance 0, and the lifetime counters
are consistent with that: `total_earned = 0` and `total_spent = 0`
(0 = 0 − 0).  There is no positive sign-up grant. -/
theorem create_user_starts_at_zero (now : Nat) (db : DB) (uid : Nat)
    (un : Option String) (fn : String) (param : StartParam) (code : String)
    (hparam : ∀ d, param ≠ StartParam.content d)
    (hu : getUser db uid = none) :
    (getUser (start_command now db uid un fn param code).1 uid).map
      (fun w => (w.tokens, w.total_earned, w.total_spent)) = some (0, 0, 0) := by
  have key : ∀ rb : Option Nat, (∀ r, rb = some r → r ≠ uid) →
      (getUser (startRegister now db uid un fn rb code).1 uid).map
        (fun w => (w.tokens, w.total_earned, w.total_spent))
      = some (0, 0, 0) := by
    intro rb hrb
    have h1 : (startRegister now db uid un fn rb code).1
        = (create_user now db uid un fn rb code).1 := by
      unfold startRegister
      rw [hu]
    rw [h1, getUser_create_user_self now db uid un fn rb code hrb]
    rfl
  cases param with
  | content d => exact absurd rfl (hparam d)
  | noParam => exact key none (fun r h => Option.noConfusion h)
  | code s =>
    show (getUser (startRegister now db uid un fn
        (match get_user_by_referral db s with
         | some ref => if ref.user_id == uid then none else some ref.user_id
         | none => none) code).1 uid).map
      (fun w => (w.tokens, w.total_earned, w.total_spent)) = some (0, 0, 0)
    apply key
    intro r hr
    cases href : get_user_by_referral db s with
    | none =>
      rw [href] at hr
      exact Option.noConfusion hr
    | some ref =>
      rw [href] at hr
      dsimp only at hr
      by_cases hself : ref.user_id == uid
      · rw [if_pos hself] at hr
        exact Option.noConfusion hr
      · rw [if_neg hself] at hr
        have hr2 : ref.user_id = r := by
          injection hr
        rw [← hr2]
        simpa using hself

/-- C6 amended witness: account 8 registers through Vic's referral code
`ABC` (Vic gets the 5-token bonus alongside); the new account's balance
and counters are still all 0. -/
theorem create_user_starts_at_zero_witness :
    (getUser (start_command 4 dbVicW 8 none "New"
        (StartParam.code "ABC") "N8N8N8N8").1 8).map
      (fun w => (w.tokens, w.total_earned, w.total_spent)) = some (0, 0, 0) :=
  create_user_starts_at_zero 4 dbVicW 8 none "New" (StartParam.code "ABC")
    "N8N8N8N8" (fun d h => StartParam.noConfusion h) (by decide)

/-! ## C7 — corrected: no collision check; a colliding code replaces the
existing account -/

/-- C7 counterexample: account 1 (Vic) holds referral code `ABC`.
Registering account 2 when the single md5 draw produces the same `ABC`
performs no regeneration: the call succeeds returning `ABC`, account 2 is
stored with the already-assigned code `ABC` (code reuse), and — because
the insert is `INSERT OR REPLACE` against the `UNIQUE referral_code`
column — Vic's row is silently deleted. -/
theorem referral_code_collision_cex :
    (create_user 3 dbVicW 2 none "New" none "ABC").2 = "ABC" ∧
    (getUser (create_user 3 dbVicW 2 none "New" none "ABC").1 2).map
        (fun u => u.referral_code) = some "ABC" ∧
    getUser (create_user 3 dbVicW 2 none "New" none "ABC").1 1 = none ∧
    vicW ∉ (create_user 3 dbVicW 2 none "New" none "ABC").1.users := by
  decide

/-- C7 amended: `generate_referral_code` draws a single md5-based code
with no lookup of existing codes and no regeneration; `create_user`
inserts it with `INSERT OR REPLACE`, so whenever the drawn code equals the
code of an existing different account, registration still succeeds with
that code, the new account stores the reused code, and the previously
existing account's row is removed from the store. -/
theorem create_user_no_collision_check (now : Nat) (db : DB) (uid : Nat)
    (un : Option String) (fn : String) (code : String) (v : UserRow)
    (_hv : v ∈ db.users) (hvc : v.referral_code = code)
    (hvid : v.user_id ≠ uid) :
    (create_user now db uid un fn none code).2 = code ∧
    getUser (create_user now db uid un fn none code).1 uid = some
      { user_id := uid
        username := un
        first_name := fn
        tokens := 0
        referral_code := code
        referred_by := none
        join_date := now
        last_activity := now
        is_active := true
        total_spent := 0
        total_earned := 0 } ∧
    v ∉ (create_user now db uid un fn none code).1.users := by
  refine ⟨rfl, getUser_create_user_self now db uid un fn none code
    (fun r h => Option.noConfusion h), ?_⟩
  intro hmem
  have hmem2 : v ∈ db.users.filter (fun w =>
      !(w.user_id == uid) && !(w.referral_code == code))
      ++ [({ user_id := uid
             username := un
             first_name := fn
             tokens := 0
             referral_code := code
             referred_by := none
             join_date := now
             last_activity := now
             is_active := true
             total_spent := 0
             total_earned := 0 } : UserRow)] := hmem
  rcases List.mem_append.mp hmem2 with h | h
  · have h2 := (List.mem_filter.mp h).2
    simp [hvc] at h2
  · have h2 := List.mem_singleton.mp h
    exact hvid (by rw [h2])

/-- C7 amended witness: the concrete collision of the counterexample,
through the amended theorem. -/
theorem create_user_no_collision_check_witness :
    (create_user 3 dbVicW 2 none "New" none "ABC").2 = "ABC" ∧
    getUser (create_user 3 dbVicW 2 none "New" none "ABC").1 2 = some
      { user_id := 2
        username := none
        first_name := "New"
        tokens := 0
        referral_code := "ABC"
        referred_by := none
        join_date := 3
        last_activity := 3
        is_active := true
        total_spent := 0
        total_earned := 0 } ∧
    vicW ∉ (create_user 3 dbVicW 2 none "New" none "ABC").1.users :=
  create_user_no_collision_check 3 dbVicW 2 none "New" "ABC" vicW (by decide)
    (by decide) (by decide)

/-! ## C8 — content unlock (spec-modelled handler) -/

/-- C8: for a registered account with balance at least the content's
price, the unlock debits exactly the price (balance down, lifetime spent
counter up, together), increments the view counter by exactly one, and
returns the media reference; payments and referrals are untouched.  The
handler is the spec-modelled `unlock_content` (the source references
`handle_content_callback` but never defines it). -/
theorem unlock_content_ok (now : Nat) (db : DB) (uid : Nat) (d : String)
    (c : ContentRow) (u : UserRow)
    (hc : getActiveContent db d = some c)
    (hu : getUser db uid = some u)
    (hge : c.tokens_required ≤ u.tokens) :
    (unlock_content now db uid d).2 = .contentRef c.file_id ∧
    (getUser (unlock_content now db uid d).1 uid).map
        (fun w => (w.tokens, w.total_spent, w.total_earned))
      = some (u.tokens - c.tokens_required,
              u.total_spent + c.tokens_required, u.total_earned) ∧
    (getActiveContent (unlock_content now db uid d).1 d).map (fun e => e.views)
      = some (c.views + 1) ∧
    (unlock_content now db uid d).1.payments = db.payments ∧
    (unlock_content now db uid d).1.referrals = db.referrals := by
  have heq : u.user_id = uid := getUser_user_id hu
  have hcp : (c.deeplink == d && c.is_active) = true :=
    List.find?_some (p := fun e : ContentRow => e.deeplink == d && e.is_active) hc
  have hrun : unlock_content now db uid d
      = ({ users := db.users.map (unlockDebitRow now uid c.tokens_required)
           payments := db.payments
           content := db.content.map (viewBumpRow d)
           referrals := db.referrals },
         .contentRef c.file_id) := by
    unfold unlock_content
    simp only [hc, hu]
    rw [if_pos hge]
  rw [hrun]
  refine ⟨rfl, ?_, ?_, rfl, rfl⟩
  · show ((db.users.map (unlockDebitRow now uid c.tokens_required)).find?
        (fun w => w.user_id == uid)).map
          (fun w => (w.tokens, w.total_spent, w.total_earned))
      = some (u.tokens - c.tokens_required,
              u.total_spent + c.tokens_required, u.total_earned)
    rw [find_user_map _ _ (fun v => by
      unfold unlockDebitRow
      by_cases h : v.user_id == uid <;> simp [h]) uid]
    have hu2 : db.users.find? (fun w => w.user_id == uid) = some u := hu
    rw [hu2]
    simp [unlockDebitRow, heq]
  · show ((db.content.map (viewBumpRow d)).find?
        (fun e => e.deeplink == d && e.is_active)).map (fun e => e.views)
      = some (c.views + 1)
    rw [find_map_congr _ _ _ (fun e => by
      unfold viewBumpRow
      by_cases h : e.deeplink == d <;> simp [h])]
    have hc2 : db.content.find? (fun e => e.deeplink == d && e.is_active)
        = some c := hc
    rw [hc2]
    have hcd : (c.deeplink == d) = true := by
      have h := hcp
      simp only [Bool.and_eq_true] at h
      exact h.1
    simp [viewBumpRow, hcd]

/-! ## C3 — ledger invariants over operation sequences -/

theorem getUser_unique {db : DB} (hn : usersNodup db) {uid : Nat}
    {u0 : UserRow} (hu : getUser db uid = some u0) :
    ∀ v ∈ db.users, v.user_id = uid → v = u0 := by
  intro v hv hvid
  have hm0 : u0 ∈ db.users := getUser_mem hu
  have hid0 : u0.user_id = uid := getUser_user_id hu
  exact List.inj_on_of_nodup_map hn hv hm0 (by rw [hvid, hid0])

theorem nodup_map_of_preserve {l : List UserRow} {f : UserRow → UserRow}
    (hf : ∀ v, (f v).user_id = v.user_id)
    (hn : (l.map (fun u => u.user_id)).Nodup) :
    ((l.map f).map (fun u => u.user_id)).Nodup := by
  rw [List.map_map]
  have h : ((fun u : UserRow => u.user_id) ∘ f)
      = (fun u : UserRow => u.user_id) := funext hf
  rwa [h]

theorem usersNodup_mapUsers {db : DB} {f : UserRow → UserRow}
    (hf : ∀ v, (f v).user_id = v.user_id) (hn : usersNodup db) :
    usersNodup { db with users := db.users.map f } := by
  show ((db.users.map f).map (fun u => u.user_id)).Nodup
  exact nodup_map_of_preserve hf hn

theorem usersNodup_update_tokens (now : Nat) {db : DB} (uid : Nat) (t : Int)
    (hn : usersNodup db) : usersNodup (update_tokens now db uid t) := by
  unfold update_tokens applyCounterUpdate
  have h1 : usersNodup (applyTokensUpdate now db uid t) :=
    usersNodup_mapUsers (fun v => by
      by_cases h : v.user_id == uid <;> simp [h]) hn
  by_cases ht : 0 < t
  · rw [if_pos ht]
    exact usersNodup_mapUsers (fun v => by
      by_cases h : v.user_id == uid <;> simp [h]) h1
  · rw [if_neg ht]
    exact usersNodup_mapUsers (fun v => by
      by_cases h : v.user_id == uid <;> simp [h]) h1

theorem balInv_update_tokens (now : Nat) {db : DB} (uid : Nat) (t : Int)
    (h : balInv db) : balInv (update_tokens now db uid t) := by
  intro v hv
  unfold update_tokens applyCounterUpdate applyTokensUpdate at hv
  by_cases ht : 0 < t
  · rw [if_pos ht] at hv
    simp only [List.map_map, List.mem_map] at hv
    obtain ⟨w, hw, rfl⟩ := hv
    have hb := h w hw
    by_cases hm : w.user_id == uid <;> simp [Function.comp, hm] <;> omega
  · rw [if_neg ht] at hv
    simp only [List.map_map, List.mem_map] at hv
    obtain ⟨w, hw, rfl⟩ := hv
    have hb := h w hw
    have habs : |t| = -t := abs_of_nonpos (not_lt.mp ht)
    by_cases hm : w.user_id == uid <;> simp [Function.comp, hm, habs] <;> omega

theorem nonnegInv_update_tokens (now : Nat) {db : DB} {uid : Nat} {t : Int}
    {u0 : UserRow} (hn : usersNodup db) (hu : getUser db uid = some u0)
    (hpos : 0 ≤ u0.tokens + t) (h : nonnegInv db) :
    nonnegInv (update_tokens now db uid t) := by
  intro v hv
  unfold update_tokens applyCounterUpdate applyTokensUpdate at hv
  by_cases ht : 0 < t
  · rw [if_pos ht] at hv
    simp only [List.map_map, List.mem_map] at hv
    obtain ⟨w, hw, rfl⟩ := hv
    by_cases hm : w.user_id == uid
    · have hw0 : w = u0 := getUser_unique hn hu w hw (by simpa using hm)
      subst hw0
      simp [Function.comp, hm]
      omega
    · simp [Function.comp, hm]
      exact h w hw
  · rw [if_neg ht] at hv
    simp only [List.map_map, List.mem_map] at hv
    obtain ⟨w, hw, rfl⟩ := hv
    by_cases hm : w.user_id == uid
    · have hw0 : w = u0 := getUser_unique hn hu w hw (by simpa using hm)
      subst hw0
      simp [Function.comp, hm]
      omega
    · simp [Function.comp, hm]
      exact h w hw

theorem payNonneg_update_tokens (now : Nat) {db : DB} (uid : Nat) (t : Int)
    (hp : payNonneg db) : payNonneg (update_tokens now db uid t) := by
  intro p hmem
  rw [update_tokens_payments] at hmem
  exact hp p hmem

theorem handle_content_deeplink_fst (db : DB) (uid : Nat) (d : String) :
    (handle_content_deeplink db uid d).1 = db := by
  unfold handle_content_deeplink
  split
  · rfl
  · split
    · rfl
    · split <;> rfl

theorem inv_add_referral_bonus (now : Nat) (db : DB) (a b : Nat)
    (hn : usersNodup db) (hb : balInv db) (hg : nonnegInv db)
    (hp : payNonneg db) :
    usersNodup (add_referral_bonus now db a b) ∧
    balInv (add_referral_bonus now db a b) ∧
    nonnegInv (add_referral_bonus now db a b) ∧
    payNonneg (add_referral_bonus now db a b) := by
  unfold add_referral_bonus
  by_cases hex : (db.referrals.find? (fun r =>
      r.referrer_id == a && r.referred_id == b)).isSome
  · rw [if_pos hex]
    exact ⟨hn, hb, hg, hp⟩
  · rw [if_neg hex]
    refine ⟨?_, ?_, ?_, ?_⟩
    · show ((db.users.map (bonusRow a)).map (fun u => u.user_id)).Nodup
      exact nodup_map_of_preserve (fun v => by
        unfold bonusRow
        by_cases h : v.user_id == a <;> simp [h]) hn
    · intro v hv
      have hv2 : v ∈ db.users.map (bonusRow a) := hv
      obtain ⟨w, hw, rfl⟩ := List.mem_map.mp hv2
      have hbw := hb w hw
      unfold bonusRow
      by_cases hm : w.user_id == a <;> simp [hm] <;> omega
    · intro v hv
      have hv2 : v ∈ db.users.map (bonusRow a) := hv
      obtain ⟨w, hw, rfl⟩ := List.mem_map.mp hv2
      have hgw := hg w hw
      unfold bonusRow
      by_cases hm : w.user_id == a <;> simp [hm] <;> omega
    · intro p hmem
      exact hp p hmem

theorem inv_create_user (now : Nat) (db : DB) (uid : Nat) (un : Option String)
    (fn : String) (rb : Option Nat) (code : String)
    (hn : usersNodup db) (hb : balInv db) (hg : nonnegInv db)
    (hp : payNonneg db) :
    usersNodup (create_user now db uid un fn rb code).1 ∧
    balInv (create_user now db uid un fn rb code).1 ∧
    nonnegInv (create_user now db uid un fn rb code).1 ∧
    payNonneg (create_user now db uid un fn rb code).1 := by
  have key : ∀ db1 : DB, usersNodup db1 → balInv db1 → nonnegInv db1 →
      payNonneg db1 →
      usersNodup (match rb with
        | some r => add_referral_bonus now db1 r uid
        | none => db1) ∧
      balInv (match rb with
        | some r => add_referral_bonus now db1 r uid
        | none => db1) ∧
      nonnegInv (match rb with
        | some r => add_referral_bonus now db1 r uid
        | none => db1) ∧
      payNonneg (match rb with
        | some r => add_referral_bonus now db1 r uid
        | none => db1) := by
    intro db1 h1 h2 h3 h4
    cases rb with
    | none => exact ⟨h1, h2, h3, h4⟩
    | some r => exact inv_add_referral_bonus now db1 r uid h1 h2 h3 h4
  apply key
  · show ((db.users.filter (fun u =>
        !(u.user_id == uid) && !(u.referral_code == code))
      ++ [({ user_id := uid
             username := un
             first_name := fn
             tokens := 0
             referral_code := code
             referred_by := rb
             join_date := now
             last_activity := now
             is_active := true
             total_spent := 0
             total_earned := 0 } : UserRow)]).map (fun u => u.user_id)).Nodup
    rw [List.map_append]
    rw [List.nodup_append]
    refine ⟨?_, ?_, ?_⟩
    · exact List.Nodup.sublist
        ((List.filter_sublist db.users).map (fun u => u.user_id)) hn
    · simp
    · intro x hx1 hx2
      obtain ⟨w, hw, rfl⟩ := List.mem_map.mp hx1
      have hpred := (List.mem_filter.mp hw).2
      simp at hpred hx2
      exact hpred.1 hx2
  · intro v hv
    rcases List.mem_append.mp hv with h | h
    · exact hb v (List.mem_filter.mp h).1
    · rw [List.mem_singleton.mp h]
      simp
  · intro v hv
    rcases List.mem_append.mp hv with h | h
    · exact hg v (List.mem_filter.mp h).1
    · rw [List.mem_singleton.mp h]
  · intro p hmem
    exact hp p hmem

theorem inv_startRegister (now : Nat) (db : DB) (uid : Nat)
    (un : Option String) (fn : String) (rb : Option Nat) (code : String)
    (hn : usersNodup db) (hb : balInv db) (hg : nonnegInv db)
    (hp : payNonneg db) :
    usersNodup (startRegister now db uid un fn rb code).1 ∧
    balInv (startRegister now db uid un fn rb code).1 ∧
    nonnegInv (startRegister now db uid un fn rb code).1 ∧
    payNonneg (startRegister now db uid un fn rb code).1 := by
  unfold startRegister
  cases hu : getUser db uid with
  | some u => exact ⟨hn, hb, hg, hp⟩
  | none => exact inv_create_user now db uid un fn rb code hn hb hg hp

theorem packageTable_pos {key : String} {pkg : Int × Int}
    (h : packageTable key = some pkg) : 0 ≤ pkg.1 := by
  unfold packageTable at h
  repeat' split at h
  all_goals try cases h
  all_goals decide

theorem inv_buy (now : Nat) (db : DB) (uid : Nat) (key : String)
    (hn : usersNodup db) (hb : balInv db) (hg : nonnegInv db)
    (hp : payNonneg db) :
    usersNodup (handle_buy_callback now db uid key).1 ∧
    balInv (handle_buy_callback now db uid key).1 ∧
    nonnegInv (handle_buy_callback now db uid key).1 ∧
    payNonneg (handle_buy_callback now db uid key).1 := by
  unfold handle_buy_callback
  cases hk : packageTable key with
  | none => exact ⟨hn, hb, hg, hp⟩
  | some pkg =>
    refine ⟨hn, hb, hg, ?_⟩
    intro p hmem
    rcases List.mem_append.mp hmem with h | h
    · exact hp p h
    · rw [List.mem_singleton.mp h]
      exact packageTable_pos hk

theorem lookupPendingPayment_mem {db : DB} {pid : Nat} {p : PaymentRow}
    {u : UserRow} (h : lookupPendingPayment db pid = some (p, u)) :
    p ∈ db.payments ∧ getUser db p.user_id = some u := by
  unfold lookupPendingPayment at h
  rw [Option.bind_eq_some] at h
  obtain ⟨q, hfind, hmap⟩ := h
  rw [Option.map_eq_some'] at hmap
  obtain ⟨w, hw, hqw⟩ := hmap
  simp only [Prod.mk.injEq] at hqw
  obtain ⟨rfl, rfl⟩ := hqw
  exact ⟨List.mem_of_find?_eq_some hfind, hw⟩

theorem payNonneg_markVerified (adminId now pid : Nat) {db : DB}
    (hp : payNonneg db) : payNonneg (markVerified adminId now pid db) := by
  intro q hq
  have hq2 : q ∈ db.payments.map (verifyRow adminId now pid) := hq
  obtain ⟨r, hr, rfl⟩ := List.mem_map.mp hq2
  unfold verifyRow
  by_cases h : r.id == pid
  · simp only [h, if_true]
    exact hp r hr
  · simp only [h]
    rw [if_neg (by simp [h])]
    exact hp r hr

theorem payNonneg_markRejected (adminId now : Nat) (reason : String)
    (pid : Nat) {db : DB} (hp : payNonneg db) :
    payNonneg (markRejected adminId now reason pid db) := by
  intro q hq
  have hq2 : q ∈ db.payments.map (rejectRow adminId now reason pid) := hq
  obtain ⟨r, hr, rfl⟩ := List.mem_map.mp hq2
  unfold rejectRow
  by_cases h : r.id == pid
  · simp only [h, if_true]
    exact hp r hr
  · simp only [h]
    rw [if_neg (by simp [h])]
    exact hp r hr

theorem inv_verify (adminId now : Nat) (db : DB) (pid : Nat) (bonus : Int)
    (hbon : 0 ≤ bonus)
    (hn : usersNodup db) (hb : balInv db) (hg : nonnegInv db)
    (hp : payNonneg db) :
    usersNodup (verify_payment_command adminId now db pid bonus).1 ∧
    balInv (verify_payment_command adminId now db pid bonus).1 ∧
    nonnegInv (verify_payment_command adminId now db pid bonus).1 ∧
    payNonneg (verify_payment_command adminId now db pid bonus).1 := by
  unfold verify_payment_command
  cases hl : lookupPendingPayment db pid with
  | none => exact ⟨hn, hb, hg, hp⟩
  | some pu =>
    obtain ⟨p, u⟩ := pu
    dsimp only
    obtain ⟨hmem, hu⟩ := lookupPendingPayment_mem hl
    have hn1 : usersNodup (markVerified adminId now pid db) := hn
    have hb1 : balInv (markVerified adminId now pid db) := hb
    have hg1 : nonnegInv (markVerified adminId now pid db) := hg
    have hp1 : payNonneg (markVerified adminId now pid db) :=
      payNonneg_markVerified adminId now pid hp
    have hu1 : getUser (markVerified adminId now pid db) p.user_id
        = some u := hu
    have hut : 0 ≤ u.tokens := hg u (getUser_mem hu)
    have hpt : 0 ≤ p.tokens := hp p hmem
    refine ⟨?_, ?_, ?_, ?_⟩
    · exact usersNodup_update_tokens now p.user_id (p.tokens + bonus) hn1
    · exact balInv_update_tokens now p.user_id (p.tokens + bonus) hb1
    · exact nonnegInv_update_tokens now hn1 hu1 (by omega) hg1
    · exact payNonneg_update_tokens now p.user_id (p.tokens + bonus) hp1

theorem inv_reject (adminId now : Nat) (db : DB) (pid : Nat) (reason : String)
    (hn : usersNodup db) (hb : balInv db) (hg : nonnegInv db)
    (hp : payNonneg db) :
    usersNodup (reject_payment_command adminId now db pid reason).1 ∧
    balInv (reject_payment_command adminId now db pid reason).1 ∧
    nonnegInv (reject_payment_command adminId now db pid reason).1 ∧
    payNonneg (reject_payment_command adminId now db pid reason).1 := by
  unfold reject_payment_command
  cases hl : lookupPendingPayment db pid with
  | none => exact ⟨hn, hb, hg, hp⟩
  | some pu =>
    exact ⟨hn, hb, hg, payNonneg_markRejected adminId now reason pid hp⟩

theorem inv_admin_tokens (now : Nat) (db : DB) (a : TokenAction) (uid : Nat)
    (amt : Int) (hamt : 0 ≤ amt)
    (hn : usersNodup db) (hb : balInv db) (hg : nonnegInv db)
    (hp : payNonneg db) :
    usersNodup (admin_tokens_command now db a uid amt).1 ∧
    balInv (admin_tokens_command now db a uid amt).1 ∧
    nonnegInv (admin_tokens_command now db a uid amt).1 ∧
    payNonneg (admin_tokens_command now db a uid amt).1 := by
  unfold admin_tokens_command
  cases hu : getUser db uid with
  | none => exact ⟨hn, hb, hg, hp⟩
  | some u0 =>
    have hut : 0 ≤ u0.tokens := hg u0 (getUser_mem hu)
    cases a with
    | add =>
      exact ⟨usersNodup_update_tokens now uid amt hn,
        balInv_update_tokens now uid amt hb,
        nonnegInv_update_tokens now hn hu (by omega) hg,
        payNonneg_update_tokens now uid amt hp⟩
    | remove =>
      dsimp only
      by_cases hlt : u0.tokens < amt
      · rw [if_pos hlt]
        exact ⟨hn, hb, hg, hp⟩
      · rw [if_neg hlt]
        have hle : amt ≤ u0.tokens := not_lt.mp hlt
        exact ⟨usersNodup_update_tokens now uid (-amt) hn,
          balInv_update_tokens now uid (-amt) hb,
          nonnegInv_update_tokens now hn hu (by omega) hg,
          payNonneg_update_tokens now uid (-amt) hp⟩
    | set =>
      exact ⟨usersNodup_update_tokens now uid (amt - u0.tokens) hn,
        balInv_update_tokens now uid (amt - u0.tokens) hb,
        nonnegInv_update_tokens now hn hu (by omega) hg,
        payNonneg_update_tokens now uid (amt - u0.tokens) hp⟩

theorem inv_runOp (adminId now : Nat) (db : DB) (op : Op)
    (hgood : op.goodAmounts)
    (hn : usersNodup db) (hb : balInv db) (hg : nonnegInv db)
    (hp : payNonneg db) :
    usersNodup (runOp adminId now db op) ∧ balInv (runOp adminId now db op) ∧
    nonnegInv (runOp adminId now db op) ∧
    payNonneg (runOp adminId now db op) := by
  cases op with
  | register uid un fn param code =>
    cases param with
    | noParam => exact inv_startRegister now db uid un fn none code hn hb hg hp
    | content d =>
      have h2 : runOp adminId now db (.register uid un fn (.content d) code)
          = db := handle_content_deeplink_fst db uid d
      rw [h2]
      exact ⟨hn, hb, hg, hp⟩
    | code s =>
      exact inv_startRegister now db uid un fn _ code hn hb hg hp
  | buy uid key => exact inv_buy now db uid key hn hb hg hp
  | adminTokens a uid amt =>
    exact inv_admin_tokens now db a uid amt hgood hn hb hg hp
  | verify pid bonus => exact inv_verify adminId now db pid bonus hgood hn hb hg hp
  | reject pid reason => exact inv_reject adminId now db pid reason hn hb hg hp

theorem balInv_add_referral_bonus (now : Nat) (db : DB) (a b : Nat)
    (hb : balInv db) : balInv (add_referral_bonus now db a b) := by
  unfold add_referral_bonus
  by_cases hex : (db.referrals.find? (fun x =>
      x.referrer_id == a && x.referred_id == b)).isSome
  · rw [if_pos hex]
    exact hb
  · rw [if_neg hex]
    intro v hv
    have hv2 : v ∈ db.users.map (bonusRow a) := hv
    obtain ⟨w, hw, rfl⟩ := List.mem_map.mp hv2
    have hbw := hb w hw
    unfold bonusRow
    by_cases hm : w.user_id == a <;> simp [hm] <;> omega

theorem balInv_runOp (adminId now : Nat) (db : DB) (op : Op)
    (hb : balInv db) : balInv (runOp adminId now db op) := by
  cases op with
  | register uid un fn param code =>
    have key : ∀ rb : Option Nat,
        balInv (startRegister now db uid un fn rb code).1 := by
      intro rb
      unfold startRegister
      cases hu : getUser db uid with
      | some u => exact hb
      | none =>
        have hb1 : balInv (create_user now db uid un fn rb code).1 := by
          have key2 : ∀ db1 : DB, balInv db1 →
              balInv (match rb with
                | some r => add_referral_bonus now db1 r uid
                | none => db1) := by
            intro db1 h1
            cases rb with
            | none => exact h1
            | some r =>
              show balInv (add_referral_bonus now db1 r uid)
              exact balInv_add_referral_bonus now db1 r uid h1
          apply key2
          intro v hv
          rcases List.mem_append.mp hv with h | h
          · exact hb v (List.mem_filter.mp h).1
          · rw [List.mem_singleton.mp h]
            simp
        exact hb1
    cases param with
    | noParam => exact key none
    | content d =>
      have h2 : runOp adminId now db (.register uid un fn (.content d) code)
          = db := handle_content_deeplink_fst db uid d
      rw [h2]
      exact hb
    | code s => exact key _
  | buy uid key =>
    show balInv (handle_buy_callback now db uid key).1
    unfold handle_buy_callback
    cases hk : packageTable key with
    | none => exact hb
    | some pkg => exact hb
  | adminTokens a uid amt =>
    show balInv (admin_tokens_command now db a uid amt).1
    unfold admin_tokens_command
    cases hu : getUser db uid with
    | none => exact hb
    | some u0 =>
      cases a with
      | add => exact balInv_update_tokens now uid amt hb
      | remove =>
        dsimp only
        by_cases hlt : u0.tokens < amt
        · rw [if_pos hlt]
          exact hb
        · rw [if_neg hlt]
          exact balInv_update_tokens now uid (-amt) hb
      | set => exact balInv_update_tokens now uid (amt - u0.tokens) hb
  | verify pid bonus =>
    show balInv (verify_payment_command adminId now db pid bonus).1
    unfold verify_payment_command
    cases hl : lookupPendingPayment db pid with
    | none => exact hb
    | some pu =>
      exact balInv_update_tokens now pu.1.user_id (pu.1.tokens + bonus) hb
  | reject pid reason =>
    show balInv (reject_payment_command adminId now db pid reason).1
    unfold reject_payment_command
    cases hl : lookupPendingPayment db pid with
    | none => exact hb
    | some pu => exact hb

/-- C3 counterexample: registering account 7 (balance 0) and then running
`/admin_tokens set 7 -5` — `int(args[3])` accepts a negative amount —
commits a state in which account 7's balance is −5: the committed balance
can go negative, refuting the never-negative half of the claim (the
`balance = earned − spent` identity still holds in that state). -/
theorem committed_negative_balance_cex :
    (getUser (runOps 99 0 emptyDB
        [.register 7 none "A" .noParam "CODE7777",
         .adminTokens .set 7 (-5)]) 7).map (fun u => u.tokens)
      = some (-5) := by
  decide

/-- C3 amended: after any sequence of committed token-mutating operations
(registration with or without referral, purchase, admin add/remove/set,
settlement, rejection), every account's balance equals
`total_earned − total_spent`; and provided every admin-entered amount is
nonnegative (`/admin_tokens` amount, `/verify` bonus) the committed
balances also stay nonnegative — a negative admin `add`/`set` amount (see
the counterexample) is the one way a committed balance goes negative. -/
theorem ledger_invariants (adminId now : Nat) (db : DB) (ops : List Op)
    (hb : balInv db) :
    balInv (runOps adminId now db ops) ∧
    (usersNodup db → nonnegInv db → payNonneg db →
      (∀ op ∈ ops, op.goodAmounts) →
      nonnegInv (runOps adminId now db ops)) := by
  induction ops generalizing db with
  | nil => exact ⟨hb, fun _ hg _ _ => hg⟩
  | cons op rest ih =>
    constructor
    · exact (ih (runOp adminId now db op)
        (balInv_runOp adminId now db op hb)).1
    · intro hn hg hp hgood
      have hstep := inv_runOp adminId now db op
        (hgood op (List.mem_cons_self op rest)) hn hb hg hp
      exact (ih (runOp adminId now db op) hstep.2.1).2 hstep.1 hstep.2.2.1
        hstep.2.2.2 (fun o ho => hgood o (List.mem_cons_of_mem op ho))

/-- C3 amended witness: the empty store satisfies all the preconditions
and the mixed operation sequence `opsW3` keeps both invariants. -/
theorem ledger_invariants_witness :
    balInv (runOps 99 0 emptyDB opsW3) ∧
    (usersNodup emptyDB → nonnegInv emptyDB → payNonneg emptyDB →
      (∀ op ∈ opsW3, op.goodAmounts) →
      nonnegInv (runOps 99 0 emptyDB opsW3)) :=
  ledger_invariants 99 0 emptyDB opsW3 (by decide)

/-- C8 witness: Alice (balance 10) unlocks the 10-token video: balance 0,
spent counter 10, views 5 → 6, media reference returned. -/
theorem unlock_content_ok_witness :
    (unlock_content 21 dbContentW 7 "abc123def456").2
        = .contentRef vidW.file_id ∧
    (getUser (unlock_content 21 dbContentW 7 "abc123def456").1 7).map
        (fun w => (w.tokens, w.total_spent, w.total_earned))
      = some (aliceW.tokens - vidW.tokens_required,
              aliceW.total_spent + vidW.tokens_required, aliceW.total_earned) ∧
    (getActiveContent (unlock_content 21 dbContentW 7 "abc123def456").1
        "abc123def456").map (fun e => e.views) = some (vidW.views + 1) ∧
    (unlock_content 21 dbContentW 7 "abc123def456").1.payments
        = dbContentW.payments ∧
    (unlock_content 21 dbContentW 7 "abc123def456").1.referrals
        = dbContentW.referrals :=
  unlock_content_ok 21 dbContentW 7 "abc123def456" vidW aliceW (by decide)
    (by decide) (by decide)

end Bot
